import Mathlib

/-!
Shallow embedding of `src/utilites/dirCompare.py` (FolderSitter) and proofs of
the specification's claims about it.

Modelling conventions:
* A Python `dict` snapshot (relative path → digest) is modelled by its key set
  (a `Finset String`) together with its lookup function (`String → String`);
  `compare_folders` only uses `keys()`, set algebra on keys, and `d[k]` lookup
  on common keys, so this captures exactly what the source consumes.
* Python `sorted` on a set of strings is `Finset.sort (· ≤ ·)` under the
  lexicographic linear order on `String`.
* Byte strings are `List Nat`; the hashlib accumulator is an abstract
  structure `HashAlg` (initial state, `update`, `hexdigest`).
* A directory tree is an inductive `Dir` of files and named subdirectories;
  relative paths are their component lists (the separator-normalized form
  `os.path.relpath` produces).
-/

namespace DirCompare

/-- A snapshot: a Python dict from relative path to digest, modelled by its
key set and its lookup function (`dirCompare.py`, produced by
`compute_folder_checksum` and consumed by `compare_folders`). -/
structure Snapshot where
  keys : Finset String
  val : String → String

/-- The dict returned by `compare_folders` (keys "added", "removed",
"changed"). -/
structure DiffResult where
  added : List String
  removed : List String
  changed : List String
  deriving DecidableEq

/-- Python `compare_folders(folder1_checksums, folder2_checksums)`
(`dirCompare.py` lines 94–119): set algebra on the two key sets, digest
comparison on common keys, and each result set rendered as a sorted list. -/
def compare_folders (folder1_checksums folder2_checksums : Snapshot) : DiffResult :=
  let folder1_files := folder1_checksums.keys
  let folder2_files := folder2_checksums.keys
  let added := folder2_files \ folder1_files
  let removed := folder1_files \ folder2_files
  let common := folder1_files ∩ folder2_files
  let changed := common.filter
    (fun file => folder1_checksums.val file ≠ folder2_checksums.val file)
  { added := added.sort (· ≤ ·)
    removed := removed.sort (· ≤ ·)
    changed := changed.sort (· ≤ ·) }

/-- Exactly one of four propositions holds. -/
def ExactlyOne (a b c d : Prop) : Prop :=
  (a ∧ ¬b ∧ ¬c ∧ ¬d) ∨ (¬a ∧ b ∧ ¬c ∧ ¬d) ∨ (¬a ∧ ¬b ∧ c ∧ ¬d) ∨ (¬a ∧ ¬b ∧ ¬c ∧ d)

/-- A concrete original snapshot used to instantiate universally quantified
theorems: files `a.txt` and `b.txt`. -/
def demoS1 : Snapshot where
  keys := {"a.txt", "b.txt"}
  val := fun k => if k = "b.txt" then "h1" else "h0"

/-- A concrete destination snapshot: files `b.txt` (changed digest) and
`c.txt`. -/
def demoS2 : Snapshot where
  keys := {"b.txt", "c.txt"}
  val := fun k => if k = "b.txt" then "h2" else "h0"

/-- The unit list iterated by `format_size` (`dirCompare.py` line 71). -/
def sizeUnits : List String := ["B", "KB", "MB", "GB", "TB"]

/-- Round `n / d` to the nearest integer, ties to even: the rounding Python's
`f"{x:.0f}"` applies to the (here exactly representable) float value `n / d`. -/
def roundHalfEven (n d : Nat) : Nat :=
  let q := n / d
  let r := n % d
  if 2 * r < d then q
  else if d < 2 * r then q + 1
  else if q % 2 = 0 then q else q + 1

/-- The loop of `format_size` (`dirCompare.py` lines 71–74).  The Python loop
keeps a float obtained from the integer input by repeated division by
`1024.0`; a binary-float division by 1024 only shifts the exponent, so for
inputs below `2 ^ 53` the float is exactly `bytes_size / d` with
`d = 1024 ^ k` after `k` iterations.  The model therefore carries the exact
pair `(bytes_size, d)`: the comparison `bytes_size < 1024.0` becomes
`bytes_size < 1024 * d`, and the rendering `f"{bytes_size:.0f}"` becomes
round-half-to-even of `bytes_size / d`.  Falling off the loop returns
Python's implicit `None`, i.e. `none`. -/
def formatSizeAux (bytes_size : Nat) : List String → Nat → Option String
  | [], _ => none
  | unit :: units, d =>
    if bytes_size < 1024 * d then
      some (toString (roundHalfEven bytes_size d) ++ unit)
    else
      formatSizeAux bytes_size units (1024 * d)

/-- Python `format_size(bytes_size)` (`dirCompare.py` lines 63–74). -/
def format_size (bytes_size : Nat) : Option String :=
  formatSizeAux bytes_size sizeUnits 1

/-- The unit index `format_size` selects for `b`: the number of divisions by
1024 performed before the value drops below 1024 (4 if it never does within
the list). -/
def unitIndex (b : Nat) : Nat :=
  if b < 1024 then 0
  else if b < 1024 ^ 2 then 1
  else if b < 1024 ^ 3 then 2
  else if b < 1024 ^ 4 then 3
  else 4

/-- A hashlib hash object for algorithm `hash_algorithm`: the state produced
by `getattr(hashlib, hash_algorithm)()`, its `update` method consuming a byte
string, and its `hexdigest` rendering.  Bytes are `Nat`s. -/
structure HashAlg (S : Type) where
  init : S
  update : S → List Nat → S
  hexdigest : S → String

/-- The successive chunks produced by `f.read(8192)` on a stream holding
`l`: maximal 8192-byte prefixes until the stream is exhausted; the final
empty read that ends the `while` loop yields no chunk. -/
def toChunks : List Nat → List (List Nat)
  | [] => []
  | a :: rest => (a :: rest).take 8192 :: toChunks (rest.drop 8191)
termination_by l => l.length
decreasing_by
  simp only [List.length_cons, List.length_drop]
  omega

/-- Python `compute_file_checksum(file_path, hash_algorithm)`
(`dirCompare.py` lines 12–25): feed the file's bytes to the hash object in
8 KB chunks, then render the hex digest. -/
def compute_file_checksum {S : Type} (alg : HashAlg S) (content : List Nat) : String :=
  alg.hexdigest ((toChunks content).foldl alg.update alg.init)

/-- Modelled from the spec ("whole-file digest of the same algorithm"): the
single-pass digest that feeds the entire content to the hash object in one
`update` call. -/
def whole_file_digest {S : Type} (alg : HashAlg S) (content : List Nat) : String :=
  alg.hexdigest (alg.update alg.init content)

/-- A concrete accumulating hash object: the state is the byte string read
so far and the digest its rendering.  Its `update` is list append, which
satisfies both accumulator laws. -/
def concatAcc : HashAlg (List Nat) where
  init := []
  update := fun s chunk => s ++ chunk
  hexdigest := fun s => toString s

/-- Python `line.startswith(pre)`: `pre`'s character sequence is a prefix of
`line`'s. -/
def startswith (line pre : String) : Bool :=
  pre.data.isPrefixOf line.data

/-- Python `s.endswith(suf)`: `suf`'s character sequence is a suffix of
`s`'s. -/
def endswith (s suf : String) : Bool :=
  suf.data.isSuffixOf s.data

/-- Python `line.split("=", 1)[1]`: everything after the first `"="`
(the empty string when no `"="` occurs; in `read_config` this is only applied
to lines that start with `original=` or `destination=`). -/
def afterFirstEq (line : String) : String :=
  String.intercalate "=" ((line.splitOn "=").drop 1)

/-- Python `s.strip('"')`: remove every leading and trailing `'"'`. -/
def stripQuotes (s : String) : String :=
  String.mk (((s.data.dropWhile (· == '"')).reverse.dropWhile (· == '"')).reverse)

/-- The value extracted from a matching config line:
`line.split("=", 1)[1].strip().strip('"')` (`dirCompare.py` lines 135, 137). -/
def configValue (line : String) : String :=
  stripQuotes (afterFirstEq line).trim

/-- One iteration of the `for line in f` loop of `read_config`
(`dirCompare.py` lines 133–137), acting on the pair
`(original_dir, destination_dir)`. -/
def configStep (st : Option String × Option String) (line : String) :
    Option String × Option String :=
  if startswith line "original=" then (some (configValue line), st.2)
  else if startswith line "destination=" then (st.1, some (configValue line))
  else st

/-- Python `read_config(file_path)` (`dirCompare.py` lines 121–142) as a
function of the config file's lines: fold the loop over the lines starting
from `(None, None)`, then raise `ValueError` when either variable is still
falsy (Python `not x`: `None` or the empty string), else return the pair. -/
def read_config (lines : List String) : Except String (String × String) :=
  match lines.foldl configStep (none, none) with
  | (some original_dir, some destination_dir) =>
    if original_dir = "" ∨ destination_dir = "" then
      Except.error "Both original and destination directories must be specified in the config file."
    else
      Except.ok (original_dir, destination_dir)
  | _ =>
    Except.error "Both original and destination directories must be specified in the config file."

/-- The constant `IGNORE_FILES` (`dirCompare.py` line 9). -/
def IGNORE_FILES : List String :=
  [".DS_Store", "Thumbs.db", "desktop.ini", ".git", ".gitignore", ".gitattributes"]

/-- The constant `IGNORE_EXTENSIONS` (`dirCompare.py` line 10). -/
def IGNORE_EXTENSIONS : List String :=
  [".tmp", ".bak", ".swp", ".swo", ".old", ".orig"]

/-- The skip test of `compute_folder_checksum` (`dirCompare.py` line 40):
`file in IGNORE_FILES or any(file.endswith(ext) for ext in IGNORE_EXTENSIONS)`
(the spec's `should_ignore`). -/
def should_ignore (file : String) : Bool :=
  decide (file ∈ IGNORE_FILES) || IGNORE_EXTENSIONS.any (fun ext => endswith file ext)

/-- A regular file in a directory tree: its name, its content bytes, and
whether it still exists when `calculate_folder_size` later calls
`os.path.exists` on it. -/
structure FileEnt where
  name : String
  content : List Nat
  present : Bool

mutual
/-- A directory: its regular files and its subdirectories, each subdirectory
carried with its name, in the order `os.walk` descends them. -/
inductive Dir where
  | mk : List FileEnt → DirList → Dir
/-- The subdirectory list of a directory. -/
inductive DirList where
  | nil : DirList
  | cons : String → Dir → DirList → DirList
end

/-- A relative path is the sequence of path components `os.path.relpath`
produces (the canonical separator-normalized form). -/
abbrev RelPath := List String

mutual
/-- Python `compute_folder_checksum(folder_path, hash_algorithm)`
(`dirCompare.py` lines 27–45) below the directory reached by the components
`pfx`: walk top-down, visit each directory's files in sorted name order,
skip those the ignore test matches, and record
(relative path, file checksum).  Each file is visited once, so the
association list has one entry per visited file, as the Python dict does. -/
def compute_folder_checksum {S : Type} (alg : HashAlg S) (pfx : RelPath) :
    Dir → List (RelPath × String)
  | .mk files subs =>
    (((files.mergeSort (fun a b => decide (a.name ≤ b.name))).filter
        (fun file => !should_ignore file.name)).map
      (fun file => (pfx ++ [file.name], compute_file_checksum alg file.content)))
      ++ compute_folder_checksum_subs alg pfx subs
/-- The recursive descent of `os.walk` over the subdirectory list. -/
def compute_folder_checksum_subs {S : Type} (alg : HashAlg S) (pfx : RelPath) :
    DirList → List (RelPath × String)
  | .nil => []
  | .cons name d rest =>
    compute_folder_checksum alg (pfx ++ [name]) d ++
      compute_folder_checksum_subs alg pfx rest
end

mutual
/-- Python `calculate_folder_size(folder_path)` (`dirCompare.py` lines
47–61): accumulate `os.path.getsize` over every file `os.walk` yields — no
ignore test — adding nothing for a file whose `os.path.exists` check fails. -/
def calculate_folder_size : Dir → Nat
  | .mk files subs =>
    files.foldl
      (fun total_size file =>
        if file.present then total_size + file.content.length else total_size) 0
      + calculate_folder_size_subs subs
/-- The recursive descent of `os.walk` for `calculate_folder_size`. -/
def calculate_folder_size_subs : DirList → Nat
  | .nil => 0
  | .cons _ d rest => calculate_folder_size d + calculate_folder_size_subs rest
end

mutual
/-- Every file of the tree, ignored or not, in walk order. -/
def allFiles : Dir → List FileEnt
  | .mk files subs => files ++ allFilesSubs subs
/-- Every file of a subdirectory list. -/
def allFilesSubs : DirList → List FileEnt
  | .nil => []
  | .cons _ d rest => allFiles d ++ allFilesSubs rest
end

/-- The bytes a file adds to the total of `calculate_folder_size`. -/
def sizeContribution (file : FileEnt) : Nat :=
  if file.present then file.content.length else 0

/-- A concrete tree containing an ignored file next to a regular one. -/
def demoDir : Dir :=
  Dir.mk [⟨".DS_Store", [1, 2], true⟩, ⟨"a.txt", [3], true⟩] .nil

theorem mem_added_iff (s1 s2 : Snapshot) (k : String) :
    k ∈ (compare_folders s1 s2).added ↔ k ∈ s2.keys ∧ k ∉ s1.keys := by
  simp [compare_folders, Finset.mem_sort, Finset.mem_sdiff, and_comm]

theorem mem_removed_iff (s1 s2 : Snapshot) (k : String) :
    k ∈ (compare_folders s1 s2).removed ↔ k ∈ s1.keys ∧ k ∉ s2.keys := by
  simp [compare_folders, Finset.mem_sort, Finset.mem_sdiff]

theorem mem_changed_iff (s1 s2 : Snapshot) (k : String) :
    k ∈ (compare_folders s1 s2).changed ↔
      (k ∈ s1.keys ∧ k ∈ s2.keys) ∧ s1.val k ≠ s2.val k := by
  simp [compare_folders, Finset.mem_sort, Finset.mem_filter, Finset.mem_inter]

/-- C1: `compare_folders` is a proper partition: the added, removed and
changed lists are pairwise disjoint, and every key in `keys(S1) ∪ keys(S2)`
falls into exactly one of added (only in S2), removed (only in S1), changed
(in both, digests differ), or the implicit unchanged class (in both, digests
equal). -/
theorem compare_folders_partition (s1 s2 : Snapshot) :
    ((compare_folders s1 s2).added.Disjoint (compare_folders s1 s2).removed ∧
     (compare_folders s1 s2).added.Disjoint (compare_folders s1 s2).changed ∧
     (compare_folders s1 s2).removed.Disjoint (compare_folders s1 s2).changed) ∧
    ∀ k ∈ s1.keys ∪ s2.keys,
      ExactlyOne
        (k ∈ (compare_folders s1 s2).added)
        (k ∈ (compare_folders s1 s2).removed)
        (k ∈ (compare_folders s1 s2).changed)
        (k ∈ s1.keys ∧ k ∈ s2.keys ∧ s1.val k = s2.val k) := by
  have hA := mem_added_iff s1 s2
  have hR := mem_removed_iff s1 s2
  have hC := mem_changed_iff s1 s2
  constructor
  · refine ⟨?_, ?_, ?_⟩
    · intro k hk hk'
      rw [hA k] at hk
      rw [hR k] at hk'
      tauto
    · intro k hk hk'
      rw [hA k] at hk
      rw [hC k] at hk'
      tauto
    · intro k hk hk'
      rw [hR k] at hk
      rw [hC k] at hk'
      tauto
  · intro k hk
    rw [Finset.mem_union] at hk
    unfold ExactlyOne
    rw [hA k, hR k, hC k]
    by_cases h1 : k ∈ s1.keys <;> by_cases h2 : k ∈ s2.keys <;>
      by_cases hv : s1.val k = s2.val k <;> simp [h1, h2, hv] <;> tauto

/-- C1 witness: the partition statement instantiated at the two concrete
demo snapshots and their common key `b.txt` (whose digests differ). -/
theorem compare_folders_partition_witness :
    ExactlyOne
      ("b.txt" ∈ (compare_folders demoS1 demoS2).added)
      ("b.txt" ∈ (compare_folders demoS1 demoS2).removed)
      ("b.txt" ∈ (compare_folders demoS1 demoS2).changed)
      ("b.txt" ∈ demoS1.keys ∧ "b.txt" ∈ demoS2.keys ∧
        demoS1.val "b.txt" = demoS2.val "b.txt") :=
  (compare_folders_partition demoS1 demoS2).2 "b.txt" (by decide)

/-- C2: swapping the two snapshots swaps added and removed and fixes
changed, as sorted lists. -/
theorem compare_folders_symm (s1 s2 : Snapshot) :
    (compare_folders s1 s2).added = (compare_folders s2 s1).removed ∧
    (compare_folders s1 s2).removed = (compare_folders s2 s1).added ∧
    (compare_folders s1 s2).changed = (compare_folders s2 s1).changed := by
  refine ⟨rfl, rfl, ?_⟩
  show Finset.sort _ _ = Finset.sort _ _
  congr 1
  ext k
  simp only [Finset.mem_filter, Finset.mem_inter]
  constructor
  · rintro ⟨⟨h1, h2⟩, hne⟩; exact ⟨⟨h2, h1⟩, fun h => hne h.symm⟩
  · rintro ⟨⟨h2, h1⟩, hne⟩; exact ⟨⟨h1, h2⟩, fun h => hne h.symm⟩

/-- C3: comparing a snapshot against itself yields the empty diff. -/
theorem compare_folders_self (s : Snapshot) :
    compare_folders s s = { added := [], removed := [], changed := [] } := by
  have hsd : s.keys \ s.keys = ∅ := Finset.sdiff_self s.keys
  have hch : (s.keys ∩ s.keys).filter (fun file => s.val file ≠ s.val file) = ∅ := by
    apply Finset.filter_false_of_mem
    intro x _ h
    exact h rfl
  unfold compare_folders
  simp only [hsd, hch, Finset.sort_empty]

/-- C4: each of the three sequences returned by `compare_folders` is sorted
with respect to the lexicographic order on strings, so the result of
comparing two given snapshots is a single well-defined value. -/
theorem compare_folders_sorted (s1 s2 : Snapshot) :
    List.Sorted (· ≤ ·) (compare_folders s1 s2).added ∧
    List.Sorted (· ≤ ·) (compare_folders s1 s2).removed ∧
    List.Sorted (· ≤ ·) (compare_folders s1 s2).changed :=
  ⟨Finset.sort_sorted _ _, Finset.sort_sorted _ _, Finset.sort_sorted _ _⟩

/-- C6 counterexample: at 1900 bytes the code yields `"2KB"`, while the
truncated value in KB is `1900 / 1024 = 1`, so the rendered numeral is not
the truncated one. -/
theorem format_size_1900_rounds_up :
    format_size 1900 = some "2KB" ∧ 1900 / 1024 = 1 ∧
      format_size 1900 ≠ some (toString (1900 / 1024) ++ "KB") := by
  refine ⟨by decide, by decide, by decide⟩

/-- C6 (amended): for every byte count below `1024 ^ 5`, `format_size`
renders the count with a 1024-based unit from B/KB/MB/GB/TB, and the numeric
part is the value in that unit rounded to the nearest integer with ties to
even (the rounding of `%.0f`), not truncated. -/
theorem format_size_spec (b : Nat) (h : b < 1024 ^ 5) :
    format_size b =
      some (toString (roundHalfEven b (1024 ^ unitIndex b)) ++
        sizeUnits.getD (unitIndex b) "") := by
  unfold format_size sizeUnits formatSizeAux unitIndex
  by_cases h0 : b < 1024
  · simp [h0, show (0:Nat) < 1024 by norm_num]
  · rw [if_neg (by omega), if_neg h0]
    unfold formatSizeAux
    by_cases h1 : b < 1024 ^ 2
    · rw [if_pos (by norm_num at h1 ⊢; omega), if_pos h1]
      norm_num
    · rw [if_neg (by norm_num at h1 ⊢; omega), if_neg h1]
      unfold formatSizeAux
      by_cases h2 : b < 1024 ^ 3
      · rw [if_pos (by norm_num at h2 ⊢; omega), if_pos h2]
        norm_num
      · rw [if_neg (by norm_num at h2 ⊢; omega), if_neg h2]
        unfold formatSizeAux
        by_cases h3 : b < 1024 ^ 4
        · rw [if_pos (by norm_num at h3 ⊢; omega), if_pos h3]
          norm_num
        · rw [if_neg (by norm_num at h3 ⊢; omega), if_neg h3]
          unfold formatSizeAux
          rw [if_pos (by norm_num at h ⊢; omega)]
          norm_num

/-- C6 witness: the amended statement instantiated at 1900 bytes. -/
theorem format_size_spec_witness :
    1900 < 1024 ^ 5 ∧
      format_size 1900 =
        some (toString (roundHalfEven 1900 (1024 ^ unitIndex 1900)) ++
          sizeUnits.getD (unitIndex 1900) "") :=
  ⟨by norm_num, format_size_spec 1900 (by norm_num)⟩

/-- C10: for every byte count of at least `1024 ^ 5`, the loop of
`format_size` exhausts its unit list without returning, so the function
yields no formatted string. -/
theorem format_size_overflow (b : Nat) (h : 1024 ^ 5 ≤ b) :
    format_size b = none := by
  norm_num at h
  unfold format_size sizeUnits formatSizeAux
  rw [if_neg (by omega)]
  unfold formatSizeAux
  rw [if_neg (by omega)]
  unfold formatSizeAux
  rw [if_neg (by omega)]
  unfold formatSizeAux
  rw [if_neg (by omega)]
  unfold formatSizeAux
  rw [if_neg (by omega)]
  rfl

/-- C10 witness: exactly at `1024 ^ 5` bytes the function returns `none`. -/
theorem format_size_overflow_witness : format_size (1024 ^ 5) = none :=
  format_size_overflow (1024 ^ 5) (Nat.le_refl _)

theorem toChunks_append_eq (content : List Nat) :
    ∀ {S : Type} (alg : HashAlg S) (s : S),
      (∀ s a b, alg.update s (a ++ b) = alg.update (alg.update s a) b) →
      (∀ s, alg.update s [] = s) →
      (toChunks content).foldl alg.update s = alg.update s content := by
  induction content using toChunks.induct with
  | case1 =>
    intro S alg s _ hnil
    rw [toChunks, List.foldl_nil, hnil]
  | case2 a rest ih =>
    intro S alg s happ hnil
    rw [toChunks, List.foldl_cons, ih alg _ happ hnil, ← happ,
      show rest.drop 8191 = (a :: rest).drop 8192 from rfl,
      List.take_append_drop]

/-- C7: for every content and every hash object whose `update` accumulates
(concatenation maps to sequential updates, the empty update is the
identity — the hashlib API contract), the chunked streaming digest of
`compute_file_checksum` equals the single-pass whole-file digest; in
particular the result does not depend on the 8192-byte chunk boundaries. -/
theorem compute_file_checksum_eq_whole_file {S : Type} (alg : HashAlg S)
    (happ : ∀ s a b, alg.update s (a ++ b) = alg.update (alg.update s a) b)
    (hnil : ∀ s, alg.update s [] = s) (content : List Nat) :
    compute_file_checksum alg content = whole_file_digest alg content := by
  unfold compute_file_checksum whole_file_digest
  rw [toChunks_append_eq content alg alg.init happ hnil]

/-- C7 witness: the theorem applied to the concrete accumulator `concatAcc`
and a concrete 20000-byte content spanning three chunks. -/
theorem compute_file_checksum_eq_whole_file_witness :
    compute_file_checksum concatAcc (List.range 20000) =
      whole_file_digest concatAcc (List.range 20000) :=
  compute_file_checksum_eq_whole_file concatAcc
    (fun s a b => (List.append_assoc s a b).symm)
    (fun s => List.append_nil s)
    (List.range 20000)

theorem foldl_configStep_fst (lines : List String)
    (h : ∀ l ∈ lines, startswith l "original=" = false) :
    ∀ st : Option String × Option String,
      (lines.foldl configStep st).1 = st.1 := by
  induction lines with
  | nil => intro st; rfl
  | cons l rest ih =>
    intro st
    rw [List.foldl_cons]
    rw [ih (fun x hx => h x (List.mem_cons_of_mem l hx))]
    unfold configStep
    rw [h l (List.mem_cons_self l rest)]
    simp only [Bool.false_eq_true, if_false]
    by_cases hd : startswith l "destination=" <;> simp [hd]

theorem foldl_configStep_snd (lines : List String)
    (h : ∀ l ∈ lines, startswith l "destination=" = false) :
    ∀ st : Option String × Option String,
      (lines.foldl configStep st).2 = st.2 := by
  induction lines with
  | nil => intro st; rfl
  | cons l rest ih =>
    intro st
    rw [List.foldl_cons]
    rw [ih (fun x hx => h x (List.mem_cons_of_mem l hx))]
    unfold configStep
    by_cases ho : startswith l "original=" <;>
      by_cases hd : startswith l "destination=" <;>
      simp_all

/-- C8: if no line of the config file starts with `original=`, or no line
starts with `destination=`, then `read_config` raises the configuration
error instead of returning a pair of paths; `read_config` is a function of
the file's content alone, so the failure precedes any directory access. -/
theorem read_config_missing_key_error (lines : List String)
    (h : (∀ l ∈ lines, startswith l "original=" = false) ∨
         (∀ l ∈ lines, startswith l "destination=" = false)) :
    ∃ msg, read_config lines = Except.error msg := by
  refine ⟨"Both original and destination directories must be specified in the config file.", ?_⟩
  unfold read_config
  rcases h with h | h
  · have h1 : (lines.foldl configStep (none, none)).1 = none :=
      foldl_configStep_fst lines h (none, none)
    rcases hfold : lines.foldl configStep (none, none) with ⟨a, b⟩
    rw [hfold] at h1
    simp only at h1
    subst h1
    cases b <;> rfl
  · have h2 : (lines.foldl configStep (none, none)).2 = none :=
      foldl_configStep_snd lines h (none, none)
    rcases hfold : lines.foldl configStep (none, none) with ⟨a, b⟩
    rw [hfold] at h2
    simp only at h2
    subst h2
    cases a <;> rfl

/-- C8 witness: a config file whose only line sets `destination=` has no
`original=` line, and `read_config` rejects it. -/
theorem read_config_missing_key_error_witness :
    ∃ msg, read_config ["destination=/backup/photos"] = Except.error msg :=
  read_config_missing_key_error ["destination=/backup/photos"]
    (Or.inl (by decide))

theorem foldl_size_eq (files : List FileEnt) :
    ∀ n : Nat,
      files.foldl
        (fun total_size file =>
          if file.present then total_size + file.content.length else total_size) n
        = n + (files.map sizeContribution).sum := by
  induction files with
  | nil => intro n; simp
  | cons f rest ih =>
    intro n
    rw [List.foldl_cons, ih, List.map_cons, List.sum_cons]
    unfold sizeContribution
    by_cases hp : f.present <;> (simp [hp]; try omega)

mutual
theorem size_eq_sum (d : Dir) :
    calculate_folder_size d = ((allFiles d).map sizeContribution).sum := by
  match d with
  | .mk files subs =>
    rw [calculate_folder_size, allFiles, foldl_size_eq, size_eq_sum_subs subs]
    simp
theorem size_eq_sum_subs (l : DirList) :
    calculate_folder_size_subs l = ((allFilesSubs l).map sizeContribution).sum := by
  match l with
  | .nil => rfl
  | .cons name d rest =>
    rw [calculate_folder_size_subs, allFilesSubs, size_eq_sum d,
      size_eq_sum_subs rest]
    simp
end

/-- C9: `calculate_folder_size` sums the byte length of every file under the
root — a file the ignore test matches is still counted, since the function
applies no ignore filtering — and a file that is absent at size-lookup time
contributes 0 to the total rather than aborting the computation. -/
theorem calculate_folder_size_spec :
    (∀ d : Dir, calculate_folder_size d = ((allFiles d).map sizeContribution).sum) ∧
    (∀ (files : List FileEnt) (subs : DirList) (f : FileEnt),
      should_ignore f.name = true → f.present = true →
      calculate_folder_size (.mk (f :: files) subs) =
        f.content.length + calculate_folder_size (.mk files subs)) ∧
    (∀ (files : List FileEnt) (subs : DirList) (f : FileEnt),
      f.present = false →
      calculate_folder_size (.mk (f :: files) subs) =
        calculate_folder_size (.mk files subs)) := by
  refine ⟨size_eq_sum, ?_, ?_⟩
  · intro files subs f _ hp
    rw [size_eq_sum, size_eq_sum]
    unfold allFiles
    rw [List.cons_append, List.map_cons, List.sum_cons]
    unfold sizeContribution
    rw [hp]
    simp
  · intro files subs f hp
    rw [size_eq_sum, size_eq_sum]
    unfold allFiles
    rw [List.cons_append, List.map_cons, List.sum_cons]
    unfold sizeContribution
    rw [hp]
    simp

/-- C9 witness: an ignored-by-name file is still counted, and a vanished
file contributes nothing. -/
theorem calculate_folder_size_spec_witness :
    calculate_folder_size (.mk [⟨".DS_Store", [7, 7], true⟩] .nil) =
      ([7, 7] : List Nat).length + calculate_folder_size (.mk [] .nil) ∧
    calculate_folder_size (.mk [⟨"gone.txt", [1, 2, 3], false⟩] .nil) =
      calculate_folder_size (.mk [] .nil) :=
  ⟨calculate_folder_size_spec.2.1 [] .nil ⟨".DS_Store", [7, 7], true⟩ (by decide) rfl,
   calculate_folder_size_spec.2.2 [] .nil ⟨"gone.txt", [1, 2, 3], false⟩ rfl⟩

mutual
theorem compute_folder_checksum_keys {S : Type} (alg : HashAlg S) (pfx : RelPath)
    (d : Dir) :
    ∀ kv ∈ compute_folder_checksum alg pfx d,
      ∃ p f, kv.1 = p ++ [f] ∧ should_ignore f = false := by
  match d with
  | .mk files subs =>
    intro kv hkv
    rw [compute_folder_checksum] at hkv
    rcases List.mem_append.mp hkv with hl | hr
    · rcases List.mem_map.mp hl with ⟨file, hfile, heq⟩
      have hkeep := (List.mem_filter.mp hfile).2
      rw [Bool.not_eq_true' ] at hkeep
      exact ⟨pfx, file.name, by rw [← heq], hkeep⟩
    · exact compute_folder_checksum_subs_keys alg pfx subs kv hr
theorem compute_folder_checksum_subs_keys {S : Type} (alg : HashAlg S) (pfx : RelPath)
    (l : DirList) :
    ∀ kv ∈ compute_folder_checksum_subs alg pfx l,
      ∃ p f, kv.1 = p ++ [f] ∧ should_ignore f = false := by
  match l with
  | .nil => intro kv hkv; exact absurd hkv (List.not_mem_nil kv)
  | .cons name d rest =>
    intro kv hkv
    rw [compute_folder_checksum_subs] at hkv
    rcases List.mem_append.mp hkv with hl | hr
    · exact compute_folder_checksum_keys alg (pfx ++ [name]) d kv hl
    · exact compute_folder_checksum_subs_keys alg pfx rest kv hr
end

theorem append_singleton_inj {p q : RelPath} {a b : String}
    (h : p ++ [a] = q ++ [b]) : a = b := by
  have ha : (p ++ [a]).getLast? = some a := List.getLast?_concat p
  have hb : (q ++ [b]).getLast? = some b := List.getLast?_concat q
  rw [h, hb] at ha
  exact (Option.some_inj.mp ha).symm

/-- C5: a file name is ignored iff it exactly equals one of the fixed ignore
names or ends with one of the fixed ignore suffixes; consequently, for every
root, the relative path of a file whose name matches either set never appears
as a key in the snapshot built by `compute_folder_checksum`, whatever the
file's content. -/
theorem ignore_policy_spec :
    (∀ name : String,
      should_ignore name = true ↔
        (name ∈ IGNORE_FILES ∨ ∃ ext ∈ IGNORE_EXTENSIONS, endswith name ext = true)) ∧
    (∀ (S : Type) (alg : HashAlg S) (pfx : RelPath) (d : Dir) (n : String),
      should_ignore n = true →
      ∀ p : RelPath, (p ++ [n]) ∉ (compute_folder_checksum alg pfx d).map Prod.fst) := by
  constructor
  · intro name
    unfold should_ignore
    rw [Bool.or_eq_true, decide_eq_true_iff, List.any_eq_true]
  · intro S alg pfx d n hign p hmem
    rcases List.mem_map.mp hmem with ⟨kv, hkv, hfst⟩
    rcases compute_folder_checksum_keys alg pfx d kv hkv with ⟨q, f, hkey, hf⟩
    rw [hfst] at hkey
    rw [append_singleton_inj hkey] at hign
    rw [hign] at hf
    exact Bool.noConfusion hf

/-- C5 witness: the theorem applied to the name `.DS_Store`, a concrete tree
containing it, and the concrete accumulator. -/
theorem ignore_policy_spec_witness :
    should_ignore ".DS_Store" = true ∧
      ([".DS_Store"] : RelPath) ∉
        (compute_folder_checksum concatAcc [] demoDir).map Prod.fst :=
  ⟨by decide,
   ignore_policy_spec.2 (List Nat) concatAcc [] demoDir ".DS_Store" (by decide) []⟩

end DirCompare
